import Mathlib

/-!
Verification development for the TypedORM document-client request
transformer (packages/core/classes/transformer/document-client-request-transformer.ts).

The transformer is embedded shallowly: entity metadata, tables and key
templates become Lean structures; every public operation becomes a total
function into `Except Err`, mirroring the thrown errors of the source.
Collaborator helpers that are not part of the provided source
(key-template parsing, unique-attribute shadow keys, the expression
builder) are modelled from the specification and marked as such in their
doc comments.
-/

namespace DocClient

/-- A runtime attribute value as the transformer sees it: a string, a
number, or the JavaScript undefined value. -/
inductive Value where
  | str (s : String)
  | num (n : Int)
  | undefined
deriving DecidableEq, Repr

/-- JavaScript truthiness of a value, used by the source's bare
`if (x)` checks: empty string, zero and undefined are falsy. -/
def Value.truthy : Value → Bool
  | .str s => s != ""
  | .num n => n != 0
  | .undefined => false

/-- Render a value into a key string (numbers are coerced to strings). -/
def Value.toStr : Value → String
  | .str s => s
  | .num n => toString n
  | .undefined => ""

/-- A value on which key-template resolution must fail: the spec's
"missing, undefined, or an empty string". -/
def Value.isUnresolvable : Value → Bool
  | .str s => s == ""
  | .num _ => false
  | .undefined => true

/-- An attribute map: a plain JavaScript object holding attribute
values, ordered as its keys are enumerated. -/
abbrev AttrMap := List (String × Value)

/-- First-match lookup in an association list, the embedding of property
access on a JavaScript object (absent keys read as undefined / none). -/
def lookupPairs {α : Type} (l : List (String × α)) (k : String) : Option α :=
  (l.find? (fun p => p.1 == k)).map (fun p => p.2)

/-- One piece of a key template: literal text or an attribute
placeholder. The source keeps templates as strings with doubled-brace
placeholder tokens; the embedding keeps them pre-tokenized, which is the
same data. -/
inductive TemplatePart where
  | lit (s : String)
  | var (n : String)
deriving DecidableEq, Repr

/-- A key template, e.g. partitionKey USER#(id) becomes
[.lit "USER#", .var "id"]. -/
abbrev Template := List TemplatePart

/-- The attribute names referenced by a template's placeholders. -/
def templateVars : Template → List String
  | [] => []
  | .lit _ :: rest => templateVars rest
  | .var n :: rest => n :: templateVars rest

/-- The error taxonomy of the transformer, one constructor per distinct
throw site of the source (names follow the spec's error taxonomy). -/
inductive Err where
  | unresolvedKeyAttribute (attr : String)
  | primaryKeyUnresolved
  | indexNotFoundOnTable (idx : String)
  | indexNotFoundOnEntity (idx : String)
  | missingUniqueAttributeValue (attr : String)
  | immutableUniqueAttribute
  | autoGeneratedAttributeKeyCollision (attr : String)
  | unsupportedSortKeyCondition
  | templateMissing (attr : String)
deriving DecidableEq, Repr

/-- Index kind: local or global secondary index. -/
inductive INDEX_TYPE where
  | LSI
  | GSI
deriving DecidableEq, Repr

/-- A physical secondary-index descriptor on the table. -/
structure IndexOptions where
  type : INDEX_TYPE
  partitionKey : String
  sortKey : String
deriving DecidableEq, Repr

/-- A table descriptor: name, partition-key attribute name, optional
sort-key attribute name, and its secondary indexes. -/
structure Table where
  name : String
  partitionKey : String
  sortKey : Option String
  indexes : List (String × IndexOptions)
deriving DecidableEq, Repr

/-- Look up a physical index by name on the table descriptor. -/
def Table.getIndexByKey (t : Table) (k : String) : Option IndexOptions :=
  lookupPairs t.indexes k

/-- A table uses a composite key iff it declares a sort key. -/
def Table.usesCompositeKey (t : Table) : Bool :=
  t.sortKey.isSome

/-- Metadata of one attribute flagged unique: its name, and the stored
auto-generated value slot the source reads before falling back to the
entity instance. -/
structure AttributeMeta where
  name : String
  value : Option Value
deriving DecidableEq, Repr

/-- Metadata of one attribute marked for auto-generated update: its name
and generation strategy. -/
structure AutoAttr where
  name : String
  strategy : String
deriving DecidableEq, Repr

/-- The resolved entity metadata record the transformer reads from the
connection: table, entity name, primary-key templates keyed by physical
attribute name, per-index templates, unique attributes and auto-update
attributes. -/
structure EntityMetadata where
  table : Table
  name : String
  primaryKey : List (String × Template)
  indexes : List (String × List (String × Template))
  uniqueAttributes : List AttributeMeta
  autoUpdateAttributes : List AutoAttr
deriving DecidableEq, Repr

/-- Modelled from the spec: the Key Template Resolver (helpers/parse-key,
not part of the provided source). Substitutes each placeholder with the
corresponding attribute's value, coercing numbers to strings, and fails
with UnresolvedKeyAttributeError when a referenced attribute is missing,
undefined, or an empty string. -/
def parseKey (t : Template) (input : AttrMap) : Except Err String :=
  match t with
  | [] => .ok ""
  | .lit s :: rest =>
    match parseKey rest input with
    | .error e => .error e
    | .ok tl => .ok (s ++ tl)
  | .var n :: rest =>
    match lookupPairs input n with
    | none => .error (.unresolvedKeyAttribute n)
    | some v =>
      if v.isUnresolvable then .error (.unresolvedKeyAttribute n)
      else
        match parseKey rest input with
        | .error e => .error e
        | .ok tl => .ok (v.toStr ++ tl)

/-- Modelled from the spec: the Key Parser of the base transformer
(getParsedPrimaryKey, not part of the provided source). Resolves the
partition-key template unconditionally and the sort-key template only
when the table declares a sort key; returns an empty result, not an
error, when no matching template exists at all. -/
def getParsedPrimaryKey (table : Table) (pkSchema : List (String × Template))
    (input : AttrMap) : Except Err (List (String × String)) :=
  match lookupPairs pkSchema table.partitionKey with
  | none => .ok []
  | some t =>
    match parseKey t input with
    | .error e => .error e
    | .ok pv =>
      match table.sortKey with
      | none => .ok [(table.partitionKey, pv)]
      | some sk =>
        match lookupPairs pkSchema sk with
        | none => .ok [(table.partitionKey, pv)]
        | some st =>
          match parseKey st input with
          | .error e => .error e
          | .ok sv => .ok [(table.partitionKey, pv), (sk, sv)]

/-- Concatenate a list of lists. -/
def joinAll {α : Type} : List (List α) → List α
  | [] => []
  | l :: ls => l ++ joinAll ls

/-- An expression payload as returned by the expression-builder
collaborator: the expression string plus attribute-name and
attribute-value placeholder maps. -/
structure ExpressionPayload where
  expression : String
  names : List (String × String)
  values : List (String × Value)
deriving DecidableEq, Repr

/-- Modelled from the spec: the expression builder's condition payload
for Condition().attributeNotExist(attr) (classes/condition and
expression-builder are not part of the provided source). -/
def attributeNotExistExpression (attr : String) : ExpressionPayload :=
  { expression := "attribute_not_exists(#CE_" ++ attr ++ ")"
    names := [("#CE_" ++ attr, attr)]
    values := [] }

/-- The operator keys a caller may place in the keyCondition object. -/
inductive FindKeyOp where
  | EQ
  | LT
  | LE
  | GT
  | GE
  | BEGINS_WITH
  | BETWEEN
deriving DecidableEq, Repr

/-- Wire symbol of a base operator (modelled from the spec's scalar
comparison list). -/
def FindKeyOp.symbol : FindKeyOp → String
  | .EQ => "="
  | .LT => "<"
  | .LE => "<="
  | .GT => ">"
  | .GE => ">="
  | .BEGINS_WITH => "BEGINS_WITH"
  | .BETWEEN => "BETWEEN"

/-- A value attached to a keyCondition operator: a scalar or a range
list (the BETWEEN pair). -/
inductive KCVal where
  | scalar (v : Value)
  | range (vs : List Value)
deriving DecidableEq, Repr

/-- JavaScript truthiness of a keyCondition value (arrays are objects
and hence always truthy). -/
def KCVal.truthy : KCVal → Bool
  | .scalar v => v.truthy
  | .range _ => true

/-- Flatten a keyCondition value into a single placeholder value. -/
def KCVal.toValue : KCVal → Value
  | .scalar v => v
  | .range vs => .str (String.intercalate "," (vs.map Value.toStr))

/-- One structured key-condition clause as assembled by the KeyCondition
class of the source (equality for the partition key; between,
begins-with or a base-operator comparison for the sort key). -/
inductive KeyCondClause where
  | eq (attr : String) (v : Value)
  | between (attr : String) (vs : List Value)
  | beginsWith (attr : String) (v : KCVal)
  | cmp (op : FindKeyOp) (attr : String) (v : KCVal)
deriving DecidableEq, Repr

/-- Modelled from the spec: the expression builder's rendering of one
key-condition clause with its placeholder maps. -/
def clausePayload : KeyCondClause → ExpressionPayload
  | .eq a v =>
    { expression := "#KY_" ++ a ++ " = :KY_" ++ a
      names := [("#KY_" ++ a, a)]
      values := [(":KY_" ++ a, v)] }
  | .between a vs =>
    { expression :=
        "#KY_" ++ a ++ " BETWEEN :KY_" ++ a ++ "_start AND :KY_" ++ a ++ "_end"
      names := [("#KY_" ++ a, a)]
      values := [(":KY_" ++ a ++ "_start", vs.getD 0 .undefined),
                 (":KY_" ++ a ++ "_end", vs.getD 1 .undefined)] }
  | .beginsWith a v =>
    { expression := "begins_with(#KY_" ++ a ++ ", :KY_" ++ a ++ ")"
      names := [("#KY_" ++ a, a)]
      values := [(":KY_" ++ a, v.toValue)] }
  | .cmp op a v =>
    { expression := "#KY_" ++ a ++ " " ++ op.symbol ++ " :KY_" ++ a
      names := [("#KY_" ++ a, a)]
      values := [(":KY_" ++ a, v.toValue)] }

/-- Modelled from the spec: buildKeyConditionExpression of the
expression-builder collaborator, joining the merged clauses with AND
and concatenating their placeholder maps. -/
def buildKeyConditionExpression (cs : List KeyCondClause) : ExpressionPayload :=
  let ps := cs.map clausePayload
  { expression := String.intercalate " AND " (ps.map ExpressionPayload.expression)
    names := joinAll (ps.map ExpressionPayload.names)
    values := joinAll (ps.map ExpressionPayload.values) }

/-- Modelled from the spec: buildUpdateExpression of the
expression-builder collaborator, a SET expression over the merged
attribute map with one name and one value placeholder per attribute. -/
def buildUpdateExpression (attrs : AttrMap) : ExpressionPayload :=
  { expression :=
      "SET " ++ String.intercalate ", "
        (attrs.map (fun p => "#UE_" ++ p.1 ++ " = :UE_" ++ p.1))
    names := attrs.map (fun p => ("#UE_" ++ p.1, p.1))
    values := attrs.map (fun p => (":UE_" ++ p.1, p.2)) }

/-- Modelled from the spec: getUniqueAttributePrimaryKey
(helpers/get-unique-attr-primary-key, not part of the provided source).
The shadow item's primary key is a deterministic function of the table,
the entity name, the attribute name and the attribute value, written
into the table's own key attributes. -/
def getUniqueAttributePrimaryKey (table : Table) (entityName attrName : String)
    (v : Value) : List (String × String) :=
  let kv := "DRM_GEN_" ++ entityName ++ "." ++ attrName ++ "#" ++ v.toStr
  match table.sortKey with
  | some sk => [(table.partitionKey, kv), (sk, kv)]
  | none => [(table.partitionKey, kv)]

/-- Lift a string key map into an attribute map. -/
def strToValMap (m : List (String × String)) : AttrMap :=
  m.map (fun p => (p.1, Value.str p.2))

/-- Object-spread merge of two attribute maps: keys of the first in
order with values overridden by the second, then the second's fresh
keys in order. -/
def mergeAttrs (a b : AttrMap) : AttrMap :=
  a.map (fun p => (p.1, (lookupPairs b p.1).getD p.2)) ++
    b.filter (fun p => (lookupPairs a p.1).isNone)

/-- Modelled from the spec: getAffectedIndexesForAttributes of the base
transformer (not part of the provided source). Recomputes every
secondary-index key attribute whose template references one of the
updated attributes and whose placeholders all resolve from them. -/
def getAffectedIndexesForAttributes (meta : EntityMetadata) (attrs : AttrMap) :
    AttrMap :=
  joinAll (meta.indexes.map (fun idx =>
    joinAll (idx.2.map (fun kt =>
      if (templateVars kt.2).any (fun n => (lookupPairs attrs n).isSome) then
        match parseKey kt.2 attrs with
        | .ok v => [(kt.1, Value.str v)]
        | .error _ => []
      else []))))

/-- Map a fallible function over a list, stopping at the first error
(the embedding of a map callback that may throw). -/
def mapExcept {α β : Type} (f : α → Except Err β) : List α → Except Err (List β)
  | [] => .ok []
  | a :: as =>
    match f a with
    | .error e => .error e
    | .ok b =>
      match mapExcept f as with
      | .error e => .error e
      | .ok bs => .ok (b :: bs)

/-- The shape of a get-item request. -/
structure GetItemInput where
  tableName : String
  key : List (String × String)
deriving DecidableEq, Repr

/-- The shape of a delete-item request. -/
structure DeleteItemInput where
  tableName : String
  key : List (String × String)
deriving DecidableEq, Repr

/-- The shape of a put-item request. -/
structure PutItemInput where
  item : AttrMap
  tableName : String
  conditionExpression : Option String
  expressionAttributeNames : List (String × String)
  expressionAttributeValues : List (String × Value)
deriving DecidableEq, Repr

/-- The result of toDynamoPutItem: a single request, or the entity put
plus the unique-attribute shadow puts as one batch list. -/
inductive PutItemResult where
  | single (p : PutItemInput)
  | batch (ps : List PutItemInput)
deriving DecidableEq, Repr

/-- The shape of an update-item request. -/
structure UpdateItemInput where
  tableName : String
  key : List (String × String)
  updateExpression : String
  expressionAttributeNames : List (String × String)
  expressionAttributeValues : List (String × Value)
  returnValues : String
deriving DecidableEq, Repr

/-- The shape of a query request. -/
structure QueryInput where
  tableName : String
  indexName : Option String
  limit : Option Nat
  scanIndexForward : Option Bool
  keyConditionExpression : Option String
  expressionAttributeNames : List (String × String)
  expressionAttributeValues : List (String × Value)
deriving DecidableEq, Repr

/-- Query scan order. -/
inductive QUERY_ORDER where
  | ASC
  | DESC
deriving DecidableEq, Repr

/-- The caller-supplied keyCondition object: operator keys with their
values, kept in the object's enumeration order. -/
abbrev KeyConditionInput := List (FindKeyOp × KCVal)

/-- Query options accepted by toDynamoQueryItem. -/
structure QueryOptions where
  keyCondition : Option KeyConditionInput
  limit : Option Nat
  orderBy : Option QUERY_ORDER
deriving DecidableEq, Repr

/-- isEmptyObject on a query-options object: no key is present. -/
def QueryOptions.isEmptyObject (o : QueryOptions) : Bool :=
  o.keyCondition.isNone && o.limit.isNone && o.orderBy.isNone

/-- The source's combined guard: queryOptions absent or empty. -/
def queryOptionsEmpty : Option QueryOptions → Bool
  | none => true
  | some o => o.isEmptyObject

/-- Put options accepted by toDynamoPutItem. -/
structure PutOptions where
  overwriteIfExists : Bool
deriving DecidableEq, Repr

/-- The effective overwrite flag: false when options are absent. -/
def overwriteOf : Option PutOptions → Bool
  | none => false
  | some o => o.overwriteIfExists

/-- Update options accepted by toDynamoUpdateItem. -/
structure UpdateOptions where
  returnValues : Option String
deriving DecidableEq, Repr

/-- Modelled from the spec: toDynamoEntity of the base transformer (not
part of the provided source) builds the literal item from the entity
instance: the resolved primary-key attributes followed by the entity's
own attributes. -/
def toDynamoEntity (meta : EntityMetadata) (entity : AttrMap) :
    Except Err AttrMap :=
  match getParsedPrimaryKey meta.table meta.primaryKey entity with
  | .error e => .error e
  | .ok parsed => .ok (strToValMap parsed ++ entity)

/-- toDynamoGetItem: resolve the primary key, reject an empty
resolution, and return the point-read request (source lines 70 to 94). -/
def toDynamoGetItem (meta : EntityMetadata) (primaryKey : AttrMap) :
    Except Err GetItemInput :=
  match getParsedPrimaryKey meta.table meta.primaryKey primaryKey with
  | .error e => .error e
  | .ok parsed =>
    if parsed.isEmpty then .error .primaryKeyUnresolved
    else .ok { tableName := meta.table.name, key := parsed }

/-- toDynamoDeleteItem: resolve the primary key, reject an empty
resolution, and return the point-delete request (source lines 244 to
268). -/
def toDynamoDeleteItem (meta : EntityMetadata) (primaryKey : AttrMap) :
    Except Err DeleteItemInput :=
  match getParsedPrimaryKey meta.table meta.primaryKey primaryKey with
  | .error e => .error e
  | .ok parsed =>
    if parsed.isEmpty then .error .primaryKeyUnresolved
    else .ok { tableName := meta.table.name, key := parsed }

/-- The value the put path reads for a unique attribute: the stored
auto-generated slot, and otherwise the entity instance's attribute
(source lines 115 to 117). -/
def resolveUniqueAttributeValue (entity : AttrMap) (attr : AttributeMeta) :
    Value :=
  match attr.value with
  | some v => v
  | none => (lookupPairs entity attr.name).getD .undefined

/-- One shadow put request for a unique attribute: its key is derived by
getUniqueAttributePrimaryKey and it always carries the
attribute-not-exists condition on the table's partition key (source
lines 114 to 137). A falsy value fails resolution. -/
def uniqueShadowPut (meta : EntityMetadata) (entity : AttrMap)
    (attr : AttributeMeta) : Except Err PutItemInput :=
  let v := resolveUniqueAttributeValue entity attr
  if !v.truthy then .error (.missingUniqueAttributeValue attr.name)
  else
    let cond := attributeNotExistExpression meta.table.partitionKey
    .ok { item := strToValMap
            (getUniqueAttributePrimaryKey meta.table meta.name attr.name v)
          tableName := meta.table.name
          conditionExpression := some cond.expression
          expressionAttributeNames := cond.names
          expressionAttributeValues := cond.values }

/-- toDynamoPutItem: build the entity item, build one shadow put per
unique attribute, attach the partition-key-not-exists condition to the
entity put unless overwriting is allowed, and return a batch exactly
when shadow puts exist (source lines 96 to 156). -/
def toDynamoPutItem (meta : EntityMetadata) (entity : AttrMap)
    (options : Option PutOptions) : Except Err PutItemResult :=
  match toDynamoEntity meta entity with
  | .error e => .error e
  | .ok dynamoEntity =>
    match mapExcept (uniqueShadowPut meta entity) meta.uniqueAttributes with
    | .error e => .error e
    | .ok uniquePutItems =>
      let cond := attributeNotExistExpression meta.table.partitionKey
      let mainPut : PutItemInput :=
        if overwriteOf options then
          { item := dynamoEntity
            tableName := meta.table.name
            conditionExpression := none
            expressionAttributeNames := []
            expressionAttributeValues := [] }
        else
          { item := dynamoEntity
            tableName := meta.table.name
            conditionExpression := some cond.expression
            expressionAttributeNames := cond.names
            expressionAttributeValues := cond.values }
      match uniquePutItems with
      | [] => .ok (.single mainPut)
      | p :: ps => .ok (.batch (mainPut :: p :: ps))

/-- The unique-attribute guard of the update path: a truthy value under
a unique attribute's name in the update body throws (source lines 187
to 192; the source's bare if makes this a JavaScript truthiness check). -/
def checkUniqueAttributesNotInBody (uniqs : List AttributeMeta)
    (body : AttrMap) : Except Err Unit :=
  match uniqs with
  | [] => .ok ()
  | a :: rest =>
    if ((lookupPairs body a.name).getD .undefined).truthy then
      .error .immutableUniqueAttribute
    else checkUniqueAttributesNotInBody rest body

/-- The auto-update formatting of the update path: for each auto-update
attribute, throw on a truthy value under its name in the primary-key
input, and otherwise record a freshly generated value for its strategy
(source lines 200 to 211). The generation environment is passed
explicitly as gen. -/
def formatAutoUpdateAttributes (autoAttrs : List AutoAttr)
    (primaryKey : AttrMap) (gen : String → Value) : Except Err AttrMap :=
  match autoAttrs with
  | [] => .ok []
  | a :: rest =>
    if ((lookupPairs primaryKey a.name).getD .undefined).truthy then
      .error (.autoGeneratedAttributeKeyCollision a.name)
    else
      match formatAutoUpdateAttributes rest primaryKey gen with
      | .error e => .error e
      | .ok acc => .ok ((a.name, gen a.strategy) :: acc)

/-- toDynamoUpdateItem: resolve and validate the primary key, reject
truthy unique attributes in the body, format auto-update attributes,
merge them with the body and the affected index attributes, and build
the update expression (source lines 158 to 242). -/
def toDynamoUpdateItem (meta : EntityMetadata) (primaryKey : AttrMap)
    (body : AttrMap) (options : Option UpdateOptions) (gen : String → Value) :
    Except Err UpdateItemInput :=
  let returnValues := (options.bind UpdateOptions.returnValues).getD "ALL_NEW"
  match getParsedPrimaryKey meta.table meta.primaryKey primaryKey with
  | .error e => .error e
  | .ok parsed =>
    if parsed.isEmpty then .error .primaryKeyUnresolved
    else
      match checkUniqueAttributesNotInBody meta.uniqueAttributes body with
      | .error e => .error e
      | .ok _ =>
        match formatAutoUpdateAttributes meta.autoUpdateAttributes primaryKey
            gen with
        | .error e => .error e
        | .ok formatted =>
          let attributesToUpdate := mergeAttrs body formatted
          let affectedIndexes :=
            getAffectedIndexesForAttributes meta attributesToUpdate
          let payload :=
            buildUpdateExpression (mergeAttrs attributesToUpdate affectedIndexes)
          .ok { tableName := meta.table.name
                key := parsed
                updateExpression := payload.expression
                expressionAttributeNames := payload.names
                expressionAttributeValues := payload.values
                returnValues := returnValues }

/-- Index validation of the query path: the requested index must exist
on the table descriptor and on the entity schema (source lines 280 to
298). -/
def validateQueryIndex (meta : EntityMetadata) (qi : String) :
    Except Err IndexOptions :=
  match meta.table.getIndexByKey qi with
  | none => .error (.indexNotFoundOnTable qi)
  | some matchingIndex =>
    match lookupPairs meta.indexes qi with
    | none => .error (.indexNotFoundOnEntity qi)
    | some _ => .ok matchingIndex

/-- Partition-key resolution against the base table: name is the
table's partition key and the value comes from the entity's primary-key
template for it (source lines 304 to 309). -/
def resolveBasePartitionKey (meta : EntityMetadata) (attrs : AttrMap) :
    Except Err (String × String) :=
  match lookupPairs meta.primaryKey meta.table.partitionKey with
  | none => .error (.templateMissing meta.table.partitionKey)
  | some t =>
    match parseKey t attrs with
    | .error e => .error e
    | .ok v => .ok (meta.table.partitionKey, v)

/-- Partition-key resolution against a global secondary index: name is
the index's partition key and the value comes from the entity schema's
template declared for that index (source lines 311 to 319). -/
def resolveIndexPartitionKey (meta : EntityMetadata) (attrs : AttrMap)
    (qi : String) (idx : IndexOptions) : Except Err (String × String) :=
  match lookupPairs meta.indexes qi with
  | none => .error (.templateMissing idx.partitionKey)
  | some sch =>
    match lookupPairs sch idx.partitionKey with
    | none => .error (.templateMissing idx.partitionKey)
    | some t =>
      match parseKey t attrs with
      | .error e => .error e
      | .ok v => .ok (idx.partitionKey, v)

/-- The partition-key resolution switch of toDynamoQueryItem: the base
table's resolution when no index is queried or the matched index is
local, the index's own resolution when it is global (source lines 301
to 319). -/
def resolveQueryPartitionKey (meta : EntityMetadata) (attrs : AttrMap)
    (ictx : Option (String × IndexOptions)) : Except Err (String × String) :=
  match ictx with
  | none => resolveBasePartitionKey meta attrs
  | some (qi, idx) =>
    if idx.type = INDEX_TYPE.LSI then resolveBasePartitionKey meta attrs
    else resolveIndexPartitionKey meta attrs qi idx

/-- Lookup of an operator key in the keyCondition object. -/
def lookupKC (kc : KeyConditionInput) (op : FindKeyOp) : Option KCVal :=
  (kc.find? (fun p => p.1 == op)).map (fun p => p.2)

/-- The fallback clause of the sort-key switch: the first enumerated
key of the keyCondition object is used as a base operator (source line
370's Object.keys access). -/
def firstKeyClause (sortName : String) (kc : KeyConditionInput) :
    KeyCondClause :=
  match kc with
  | [] => .cmp .EQ sortName (.scalar .undefined)
  | (op, v) :: _ => .cmp op sortName v

/-- The sort-key condition switch of toDynamoQueryItem: a non-empty
BETWEEN wins, else a truthy BEGINS_WITH, else the first enumerated key
is used as a base operator (source lines 361 to 376). -/
def buildSortKeyCondition (sortName : String) (kc : KeyConditionInput) :
    KeyCondClause :=
  match lookupKC kc FindKeyOp.BETWEEN with
  | some (.range (v :: vs)) => .between sortName (v :: vs)
  | _ =>
    match lookupKC kc FindKeyOp.BEGINS_WITH with
    | some bv =>
      if bv.truthy then .beginsWith sortName bv
      else firstKeyClause sortName kc
    | none => firstKeyClause sortName kc

/-- Whether the BETWEEN branch of the sort-key switch fires: the
keyCondition holds a BETWEEN key with a non-empty range. -/
def betweenTaken (kc : KeyConditionInput) : Bool :=
  match lookupKC kc FindKeyOp.BETWEEN with
  | some (.range (_ :: _)) => true
  | _ => false

/-- Whether the BEGINS_WITH branch of the sort-key switch fires: the
keyCondition holds a BEGINS_WITH key with a truthy value. -/
def beginsWithTaken (kc : KeyConditionInput) : Bool :=
  match lookupKC kc FindKeyOp.BEGINS_WITH with
  | some bv => bv.truthy
  | none => false

/-- The partition-only query request returned when no query options are
supplied (source lines 325 to 333). -/
def partitionOnlyQuery (meta : EntityMetadata) (queryIndex : Option String)
    (clause : KeyCondClause) : QueryInput :=
  let payload := buildKeyConditionExpression [clause]
  { tableName := meta.table.name
    indexName := queryIndex
    limit := none
    scanIndexForward := none
    keyConditionExpression := some payload.expression
    expressionAttributeNames := payload.names
    expressionAttributeValues := payload.values }

/-- toDynamoQueryItem: validate a requested index, resolve the
partition key, return the partition-only query when options are absent
or empty, otherwise resolve the sort-key name (rejecting a table
without a composite key), apply limit and order, and merge the sort-key
clause when a non-empty keyCondition is supplied (source lines 270 to
392). -/
def toDynamoQueryItem (meta : EntityMetadata) (attrs : AttrMap)
    (queryIndex : Option String) (queryOptions : Option QueryOptions) :
    Except Err QueryInput :=
  match (match queryIndex with
         | none => Except.ok (none : Option (String × IndexOptions))
         | some qi => (validateQueryIndex meta qi).map
             (fun idx => some (qi, idx))) with
  | .error e => .error e
  | .ok ictx =>
    match resolveQueryPartitionKey meta attrs ictx with
    | .error e => .error e
    | .ok pk =>
      let partitionKeyCondition := KeyCondClause.eq pk.1 (Value.str pk.2)
      match queryOptions with
      | none => .ok (partitionOnlyQuery meta queryIndex partitionKeyCondition)
      | some o =>
        if o.isEmptyObject then
          .ok (partitionOnlyQuery meta queryIndex partitionKeyCondition)
        else
          match (match ictx with
                 | none =>
                   match meta.table.sortKey with
                   | none => Except.error Err.unsupportedSortKeyCondition
                   | some sk => Except.ok sk
                 | some (_, idx) => Except.ok idx.sortKey) with
          | .error e => .error e
          | .ok sortName =>
            let baseParams : QueryInput :=
              { tableName := meta.table.name
                indexName := queryIndex
                limit := o.limit
                scanIndexForward :=
                  some (o.orderBy.isNone || o.orderBy == some QUERY_ORDER.ASC)
                keyConditionExpression := none
                expressionAttributeNames := []
                expressionAttributeValues := [] }
            match o.keyCondition with
            | none => .ok baseParams
            | some kc =>
              if kc.isEmpty then .ok baseParams
              else
                let payload := buildKeyConditionExpression
                  [partitionKeyCondition, buildSortKeyCondition sortName kc]
                .ok { baseParams with
                      keyConditionExpression := some payload.expression
                      expressionAttributeNames := payload.names
                      expressionAttributeValues := payload.values }

/-- Decidable equality of fallible results, so concrete runs of the
transformer can be checked by evaluation. -/
instance {ε α : Type} [DecidableEq ε] [DecidableEq α] :
    DecidableEq (Except ε α) := fun
  | .error e, .error f =>
    if h : e = f then isTrue (congrArg Except.error h)
    else isFalse (fun c => h (Except.error.inj c))
  | .error _, .ok _ => isFalse (fun c => Except.noConfusion c)
  | .ok _, .error _ => isFalse (fun c => Except.noConfusion c)
  | .ok x, .ok y =>
    if h : x = y then isTrue (congrArg Except.ok h)
    else isFalse (fun c => h (Except.ok.inj c))

/-- Modelled from the spec: the demo table of the User fixture (the
table module of the repository is not part of the provided source). Its
key attributes are named PK and SK and its GSI1 keys GSI1PK and GSI1SK,
matching the Key map the spec's scenario expects. -/
def userTable : Table :=
  { name := "test-table"
    partitionKey := "PK"
    sortKey := some "SK"
    indexes := [("GSI1",
      { type := .GSI, partitionKey := "GSI1PK", sortKey := "GSI1SK" })] }

/-- The User entity of the source fixture: primary key templates
USER#id on both key attributes, and GSI1 templates USER#STATUS#status
and USER#name. -/
def userMeta : EntityMetadata :=
  { table := userTable
    name := "user"
    primaryKey := [("PK", [.lit "USER#", .var "id"]),
                   ("SK", [.lit "USER#", .var "id"])]
    indexes := [("GSI1",
      [("GSI1PK", [.lit "USER#STATUS#", .var "status"]),
       ("GSI1SK", [.lit "USER#", .var "name"])])]
    uniqueAttributes := []
    autoUpdateAttributes := [] }

/-- A concrete entity on a simple-key table (no sort key), used to
exercise the no-composite-key paths. -/
def orgMeta : EntityMetadata :=
  { table := { name := "org-table"
               partitionKey := "PK"
               sortKey := none
               indexes := [] }
    name := "organisation"
    primaryKey := [("PK", [.lit "ORG#", .var "id"])]
    indexes := []
    uniqueAttributes := []
    autoUpdateAttributes := [] }

/-- A concrete entity with one unique attribute (email), used to
exercise the unique-attribute paths. -/
def uniqMeta : EntityMetadata :=
  { table := { name := "uniq-table"
               partitionKey := "PK"
               sortKey := some "SK"
               indexes := [] }
    name := "account"
    primaryKey := [("PK", [.lit "ACC#", .var "id"]),
                   ("SK", [.lit "ACC#", .var "id"])]
    indexes := []
    uniqueAttributes := [{ name := "email", value := none }]
    autoUpdateAttributes := [] }

/-- A concrete entity whose primary-key template references an
attribute that is also marked for auto-generated update. -/
def autoKeyMeta : EntityMetadata :=
  { table := { name := "auto-table"
               partitionKey := "PK"
               sortKey := none
               indexes := [] }
    name := "counterdoc"
    primaryKey := [("PK", [.lit "A#", .var "id", .lit "#", .var "v"])]
    indexes := []
    uniqueAttributes := []
    autoUpdateAttributes := [{ name := "v", strategy := "COUNTER" }] }

/-- A concrete entity with one auto-update timestamp attribute not
referenced by the primary key. -/
def autoStampMeta : EntityMetadata :=
  { table := { name := "stamp-table"
               partitionKey := "PK"
               sortKey := none
               indexes := [] }
    name := "stampdoc"
    primaryKey := [("PK", [.lit "B#", .var "id"])]
    indexes := []
    uniqueAttributes := []
    autoUpdateAttributes := [{ name := "updatedAt", strategy := "ISO_DATE" }] }

/-- A concrete entity instance put on uniqMeta. -/
def testPutEntity : AttrMap :=
  [("id", Value.str "1"), ("email", Value.str "a-b")]

/-- The entity put toDynamoPutItem builds for testPutEntity. -/
def testPutMain : PutItemInput :=
  { item := [("PK", Value.str "ACC#1"), ("SK", Value.str "ACC#1"),
             ("id", Value.str "1"), ("email", Value.str "a-b")]
    tableName := "uniq-table"
    conditionExpression := some "attribute_not_exists(#CE_PK)"
    expressionAttributeNames := [("#CE_PK", "PK")]
    expressionAttributeValues := [] }

/-- The email shadow put toDynamoPutItem builds for testPutEntity. -/
def testPutShadow : PutItemInput :=
  { item := [("PK", Value.str "DRM_GEN_account.email#a-b"),
             ("SK", Value.str "DRM_GEN_account.email#a-b")]
    tableName := "uniq-table"
    conditionExpression := some "attribute_not_exists(#CE_PK)"
    expressionAttributeNames := [("#CE_PK", "PK")]
    expressionAttributeValues := [] }

/-- The full batch toDynamoPutItem returns for testPutEntity. -/
def testPutResult : PutItemResult :=
  .batch [testPutMain, testPutShadow]

/-- The physical GSI1 descriptor of the demo table. -/
def gsi1Index : IndexOptions :=
  { type := INDEX_TYPE.GSI, partitionKey := "GSI1PK", sortKey := "GSI1SK" }

/-- A limit-only query-options object (no key condition). -/
def limitOnlyOptions : QueryOptions :=
  { keyCondition := none, limit := some 5, orderBy := none }

/-- A successful fallible map preserves the list length. -/
theorem mapExcept_ok_length {α β : Type} (f : α → Except Err β) (l : List α)
    (m : List β) (h : mapExcept f l = .ok m) : m.length = l.length := by
  induction l generalizing m with
  | nil =>
    simp only [mapExcept] at h
    cases h
    rfl
  | cons a as ih =>
    simp only [mapExcept] at h
    cases hf : f a with
    | error e => rw [hf] at h; cases h
    | ok b =>
      rw [hf] at h
      cases hm : mapExcept f as with
      | error e => rw [hm] at h; cases h
      | ok bs =>
        rw [hm] at h
        cases h
        simp [ih bs hm]

/-- A successful fallible map sends the i-th input to the i-th output. -/
theorem mapExcept_ok_get {α β : Type} (f : α → Except Err β) (l : List α)
    (m : List β) (h : mapExcept f l = .ok m) :
    ∀ i (hi : i < l.length) (hm : i < m.length),
      f (l.get ⟨i, hi⟩) = .ok (m.get ⟨i, hm⟩) := by
  induction l generalizing m with
  | nil => intro i hi; cases hi
  | cons a as ih =>
    simp only [mapExcept] at h
    cases hf : f a with
    | error e => rw [hf] at h; cases h
    | ok b =>
      rw [hf] at h
      cases hrec : mapExcept f as with
      | error e => rw [hrec] at h; cases h
      | ok bs =>
        rw [hrec] at h
        cases h
        intro i hi hm
        cases i with
        | zero => simpa using hf
        | succ j =>
          exact ih bs hrec j (Nat.lt_of_succ_lt_succ hi)
            (Nat.lt_of_succ_lt_succ hm)

/-- Every output of a successful fallible map comes from some input. -/
theorem mapExcept_ok_mem {α β : Type} (f : α → Except Err β) (l : List α)
    (m : List β) (h : mapExcept f l = .ok m) :
    ∀ b ∈ m, ∃ a ∈ l, f a = .ok b := by
  induction l generalizing m with
  | nil =>
    simp only [mapExcept] at h
    cases h
    intro b hb
    cases hb
  | cons a as ih =>
    simp only [mapExcept] at h
    cases hf : f a with
    | error e => rw [hf] at h; cases h
    | ok b0 =>
      rw [hf] at h
      cases hrec : mapExcept f as with
      | error e => rw [hrec] at h; cases h
      | ok bs =>
        rw [hrec] at h
        cases h
        intro b hb
        cases hb with
        | head => exact ⟨a, List.mem_cons_self a as, hf⟩
        | tail _ htl =>
          obtain ⟨a0, ha0, hfa0⟩ := ih bs hrec b htl
          exact ⟨a0, List.mem_cons_of_mem a ha0, hfa0⟩

/-- A successful shadow put's item is exactly the deterministic
unique-attribute key of (table, entity name, attribute name, resolved
value). -/
theorem uniqueShadowPut_ok_item (meta : EntityMetadata) (entity : AttrMap)
    (attr : AttributeMeta) (p : PutItemInput)
    (h : uniqueShadowPut meta entity attr = .ok p) :
    p.item = strToValMap (getUniqueAttributePrimaryKey meta.table meta.name
      attr.name (resolveUniqueAttributeValue entity attr)) := by
  simp only [uniqueShadowPut] at h
  split at h
  · cases h
  · cases h
    rfl

/-- A successful shadow put always carries the partition-key
attribute-not-exists condition. -/
theorem uniqueShadowPut_ok_cond (meta : EntityMetadata) (entity : AttrMap)
    (attr : AttributeMeta) (p : PutItemInput)
    (h : uniqueShadowPut meta entity attr = .ok p) :
    p.conditionExpression =
      some (attributeNotExistExpression meta.table.partitionKey).expression := by
  simp only [uniqueShadowPut] at h
  split at h
  · cases h
  · cases h
    rfl

/-- Claim C9: for the User entity (primary key USER#id on both key
attributes, GSI1 partition template USER#STATUS#status), the get
request for id 1 keys both PK and SK to USER#1, and the GSI1 query for
status active carries IndexName GSI1 and a key condition equating the
GSI1 partition-key attribute to USER#STATUS#active with no sort-key
condition. -/
theorem c9_user_scenario :
    toDynamoGetItem userMeta [("id", Value.str "1")] =
      .ok { tableName := "test-table"
            key := [("PK", "USER#1"), ("SK", "USER#1")] } ∧
    toDynamoQueryItem userMeta [("status", Value.str "active")]
        (some "GSI1") none =
      .ok { tableName := "test-table"
            indexName := some "GSI1"
            limit := none
            scanIndexForward := none
            keyConditionExpression := some "#KY_GSI1PK = :KY_GSI1PK"
            expressionAttributeNames := [("#KY_GSI1PK", "GSI1PK")]
            expressionAttributeValues :=
              [(":KY_GSI1PK", Value.str "USER#STATUS#active")] } := by
  exact ⟨by decide, by decide⟩

/-- Claim C5, behavior of the code at the failing input: an update body
assigning the empty string to the unique attribute email raises no
error; the request is returned with the unique attribute silently
included in the update expression, because the source guards the
rejection with a JavaScript truthiness test on the assigned value. -/
theorem c5_code_behavior :
    (toDynamoUpdateItem uniqMeta [("id", Value.str "1")]
        [("email", Value.str "")] none (fun _ => Value.undefined)).toOption.map
      UpdateItemInput.updateExpression = some "SET #UE_email = :UE_email" := by
  decide

/-- Claim C4, counterexample: on a table with no sort key, query
options that carry only a limit and no sort-key condition still raise
the unsupported-sort-key-condition error, contradicting the claim that
the error is raised exactly when a sort-key condition is supplied. -/
theorem c4_counterexample :
    toDynamoQueryItem orgMeta [("id", Value.str "1")] none
      (some { keyCondition := none, limit := some 10, orderBy := none }) =
    .error .unsupportedSortKeyCondition := by
  decide

/-- Claim C6, counterexample: with an auto-update timestamp attribute
declared, two update calls with identical metadata and inputs but
different generation environments return different request objects, so
toDynamoUpdateItem is not a deterministic function of (metadata, input)
alone. -/
theorem c6_counterexample :
    (toDynamoUpdateItem autoStampMeta [("id", Value.str "1")]
        [("name", Value.str "n")] none (fun _ => Value.str "2024")).toOption.map
      UpdateItemInput.expressionAttributeValues ≠
    (toDynamoUpdateItem autoStampMeta [("id", Value.str "1")]
        [("name", Value.str "n")] none (fun _ => Value.str "2025")).toOption.map
      UpdateItemInput.expressionAttributeValues := by
  decide

/-- Claim C8, counterexample: the auto-update attribute v collides with
the primary-key attribute v (the key template references v and the
primary-key input assigns it the falsy value 0), yet no collision error
is raised and the freshly generated value is merged into the update,
because the source guards the collision check with a JavaScript
truthiness test. -/
theorem c8_counterexample :
    (toDynamoUpdateItem autoKeyMeta [("id", Value.str "1"), ("v", Value.num 0)]
        [("x", Value.str "y")] none (fun _ => Value.str "GEN")).toOption.map
      UpdateItemInput.expressionAttributeValues =
    some [(":UE_x", Value.str "y"), (":UE_v", Value.str "GEN")] := by
  decide

/-- Claim C10, counterexample: a keyCondition holding an empty BETWEEN
before a scalar EQ builds a base-operator clause for the first
enumerated key BETWEEN, not a clause for the first scalar comparison
operator EQ as the claim states. -/
theorem c10_counterexample :
    buildSortKeyCondition "SK"
        [(.BETWEEN, .range []), (.EQ, .scalar (.num 5))] =
      .cmp .BETWEEN "SK" (.range []) ∧
    buildSortKeyCondition "SK"
        [(.BETWEEN, .range []), (.EQ, .scalar (.num 5))] ≠
      .cmp .EQ "SK" (.scalar (.num 5)) := by
  exact ⟨by decide, by decide⟩

/-- A successful base-table partition resolution names the table's own
partition key and takes its value from the entity's primary-key
template for that attribute. -/
theorem resolveBasePartitionKey_ok (meta : EntityMetadata) (attrs : AttrMap)
    (nm v : String) (h : resolveBasePartitionKey meta attrs = .ok (nm, v)) :
    nm = meta.table.partitionKey ∧
    ∃ t, lookupPairs meta.primaryKey meta.table.partitionKey = some t ∧
      parseKey t attrs = .ok v := by
  unfold resolveBasePartitionKey at h
  cases hl : lookupPairs meta.primaryKey meta.table.partitionKey with
  | none =>
    simp only [hl] at h
    exact Except.noConfusion h
  | some t =>
    simp only [hl] at h
    cases hp : parseKey t attrs with
    | error e =>
      simp only [hp] at h
      exact Except.noConfusion h
    | ok pv =>
      simp only [hp, Except.ok.injEq, Prod.mk.injEq] at h
      obtain ⟨h1, h2⟩ := h
      subst h1
      subst h2
      exact ⟨rfl, t, rfl, hp⟩

/-- A successful index partition resolution names the index's own
partition key and takes its value from the entity schema's template
declared for that index. -/
theorem resolveIndexPartitionKey_ok (meta : EntityMetadata) (attrs : AttrMap)
    (qi : String) (idx : IndexOptions) (nm v : String)
    (h : resolveIndexPartitionKey meta attrs qi idx = .ok (nm, v)) :
    nm = idx.partitionKey ∧
    ∃ sch t, lookupPairs meta.indexes qi = some sch ∧
      lookupPairs sch idx.partitionKey = some t ∧
      parseKey t attrs = .ok v := by
  unfold resolveIndexPartitionKey at h
  cases hs : lookupPairs meta.indexes qi with
  | none =>
    simp only [hs] at h
    exact Except.noConfusion h
  | some sch =>
    simp only [hs] at h
    cases hl : lookupPairs sch idx.partitionKey with
    | none =>
      simp only [hl] at h
      exact Except.noConfusion h
    | some t =>
      simp only [hl] at h
      cases hp : parseKey t attrs with
      | error e =>
        simp only [hp] at h
        exact Except.noConfusion h
      | ok pv =>
        simp only [hp, Except.ok.injEq, Prod.mk.injEq] at h
        obtain ⟨h1, h2⟩ := h
        subst h1
        subst h2
        exact ⟨rfl, sch, t, rfl, hl, hp⟩

/-- Claim C1: for the partition key resolved by toDynamoQueryItem, if
no index is queried or the matched index is local, the resolved name is
the table's own partition key and the value comes from the entity's
primary-key template for it; if the matched index is global, the
resolved name is the index's own partition key and the value comes from
the entity schema's template declared for that index. -/
theorem c1_partition_key_source (meta : EntityMetadata) (attrs : AttrMap)
    (ictx : Option (String × IndexOptions)) (nm v : String)
    (h : resolveQueryPartitionKey meta attrs ictx = .ok (nm, v)) :
    ((ictx = none ∨
        ∃ qi idx, ictx = some (qi, idx) ∧ idx.type = INDEX_TYPE.LSI) →
      nm = meta.table.partitionKey ∧
      ∃ t, lookupPairs meta.primaryKey meta.table.partitionKey = some t ∧
        parseKey t attrs = .ok v) ∧
    (∀ qi idx, ictx = some (qi, idx) → idx.type = INDEX_TYPE.GSI →
      nm = idx.partitionKey ∧
      ∃ sch t, lookupPairs meta.indexes qi = some sch ∧
        lookupPairs sch idx.partitionKey = some t ∧
        parseKey t attrs = .ok v) := by
  constructor
  · intro hcase
    have hbase : resolveBasePartitionKey meta attrs = .ok (nm, v) := by
      cases hcase with
      | inl h0 =>
        rw [h0] at h
        exact h
      | inr h0 =>
        obtain ⟨qi, idx, hctx, htype⟩ := h0
        rw [hctx] at h
        simp only [resolveQueryPartitionKey, htype, if_pos] at h
        exact h
    exact resolveBasePartitionKey_ok meta attrs nm v hbase
  · intro qi idx hctx htype
    rw [hctx] at h
    simp only [resolveQueryPartitionKey, htype] at h
    exact resolveIndexPartitionKey_ok meta attrs qi idx nm v h

/-- Claim C7: on an entity whose table uses a composite key, the get
and delete requests built from the same primary-key input carry
identical Key maps. -/
theorem c7_get_delete_key_agree (meta : EntityMetadata) (pk : AttrMap)
    (hc : meta.table.usesCompositeKey = true)
    (g : GetItemInput) (d : DeleteItemInput)
    (hg : toDynamoGetItem meta pk = .ok g)
    (hd : toDynamoDeleteItem meta pk = .ok d) :
    g.key = d.key := by
  unfold toDynamoGetItem at hg
  unfold toDynamoDeleteItem at hd
  cases hp : getParsedPrimaryKey meta.table meta.primaryKey pk with
  | error e =>
    rw [hp] at hg
    cases hg
  | ok parsed =>
    rw [hp] at hg
    rw [hp] at hd
    by_cases he : parsed.isEmpty
    · simp [he] at hg
    · simp only [he, if_neg, Bool.not_eq_true, Except.ok.injEq] at hg hd
      rw [← hg, ← hd]

/-- Claim C6 (amended): when the entity declares no auto-update
attributes, toDynamoUpdateItem is independent of the value-generation
environment, so two invocations with identical metadata and inputs
return identical request objects. -/
theorem c6_amended_determinism (meta : EntityMetadata) (pk body : AttrMap)
    (opts : Option UpdateOptions) (g1 g2 : String → Value)
    (h : meta.autoUpdateAttributes = []) :
    toDynamoUpdateItem meta pk body opts g1 =
      toDynamoUpdateItem meta pk body opts g2 := by
  unfold toDynamoUpdateItem
  rw [h]
  simp only [formatAutoUpdateAttributes]

/-- Claim C4 (amended): querying a table that declares no sort key from
the base table raises the unsupported-sort-key-condition error exactly
when a non-empty query-options object is supplied, even one carrying no
sort-key condition; with absent or empty options the partition-only
query is returned. -/
theorem c4_amended_error_on_any_options (meta : EntityMetadata)
    (attrs : AttrMap) (qo : Option QueryOptions)
    (hsk : meta.table.sortKey = none) (nm v : String)
    (hpk : resolveBasePartitionKey meta attrs = .ok (nm, v)) :
    (queryOptionsEmpty qo = false →
      toDynamoQueryItem meta attrs none qo =
        .error .unsupportedSortKeyCondition) ∧
    (queryOptionsEmpty qo = true →
      toDynamoQueryItem meta attrs none qo =
        .ok (partitionOnlyQuery meta none
          (.eq nm (Value.str v)))) := by
  have hpk2 : resolveQueryPartitionKey meta attrs none = .ok (nm, v) := hpk
  constructor
  · intro hq
    cases qo with
    | none => simp [queryOptionsEmpty] at hq
    | some o =>
      simp only [queryOptionsEmpty] at hq
      simp [toDynamoQueryItem, hpk2, hq, hsk]
  · intro hq
    cases qo with
    | none => simp [toDynamoQueryItem, hpk2]
    | some o =>
      simp only [queryOptionsEmpty] at hq
      simp [toDynamoQueryItem, hpk2, hq]

/-- Claim C2: a successful put for an entity with N unique attributes
returns the entity put followed by exactly N shadow puts (a single
request when N is zero), and each shadow put's item is the
deterministic unique-attribute key of (table, entity name, attribute
name, resolved attribute value), so re-deriving it from the same inputs
yields the same key. -/
theorem c2_put_batch_shape (meta : EntityMetadata) (entity : AttrMap)
    (options : Option PutOptions) (res : PutItemResult)
    (h : toDynamoPutItem meta entity options = .ok res) :
    (meta.uniqueAttributes = [] → ∃ p, res = .single p) ∧
    (meta.uniqueAttributes ≠ [] →
      ∃ mainPut shadows, res = .batch (mainPut :: shadows) ∧
        shadows.length = meta.uniqueAttributes.length ∧
        ∀ i (hi : i < meta.uniqueAttributes.length)
          (hs : i < shadows.length),
          (shadows.get ⟨i, hs⟩).item =
            strToValMap (getUniqueAttributePrimaryKey meta.table meta.name
              (meta.uniqueAttributes.get ⟨i, hi⟩).name
              (resolveUniqueAttributeValue entity
                (meta.uniqueAttributes.get ⟨i, hi⟩)))) := by
  unfold toDynamoPutItem at h
  cases hde : toDynamoEntity meta entity with
  | error e =>
    simp only [hde] at h
    exact Except.noConfusion h
  | ok de =>
    simp only [hde] at h
    cases hm : mapExcept (uniqueShadowPut meta entity) meta.uniqueAttributes with
    | error e =>
      simp only [hm] at h
      exact Except.noConfusion h
    | ok ups =>
      simp only [hm] at h
      cases ups with
      | nil =>
        simp only [Except.ok.injEq] at h
        constructor
        · intro _
          exact ⟨_, h.symm⟩
        · intro hne
          exfalso
          apply hne
          have hlen := mapExcept_ok_length _ _ _ hm
          exact List.eq_nil_of_length_eq_zero hlen.symm
      | cons p ps =>
        simp only [Except.ok.injEq] at h
        constructor
        · intro hnil
          rw [hnil] at hm
          simp only [mapExcept, Except.ok.injEq] at hm
          exact List.noConfusion hm
        · intro _
          refine ⟨_, p :: ps, h.symm, ?_, ?_⟩
          · exact mapExcept_ok_length _ _ _ hm
          · intro i hi hs
            have hget := mapExcept_ok_get _ _ _ hm i hi hs
            exact uniqueShadowPut_ok_item meta entity _ _ hget

/-- Claim C3: a successful put carries the partition-key
attribute-not-exists condition on the entity put exactly when
overwriting is not requested, and every shadow put always carries that
condition regardless of the overwrite option. -/
theorem c3_put_conditions (meta : EntityMetadata) (entity : AttrMap)
    (options : Option PutOptions) (res : PutItemResult)
    (h : toDynamoPutItem meta entity options = .ok res) :
    (∀ p, res = .single p →
      p.conditionExpression =
        (if overwriteOf options then none
         else some (attributeNotExistExpression
           meta.table.partitionKey).expression)) ∧
    (∀ mainPut shadows, res = .batch (mainPut :: shadows) →
      (mainPut.conditionExpression =
        (if overwriteOf options then none
         else some (attributeNotExistExpression
           meta.table.partitionKey).expression)) ∧
      ∀ s ∈ shadows, s.conditionExpression =
        some (attributeNotExistExpression meta.table.partitionKey).expression) := by
  unfold toDynamoPutItem at h
  cases hde : toDynamoEntity meta entity with
  | error e =>
    simp only [hde] at h
    exact Except.noConfusion h
  | ok de =>
    simp only [hde] at h
    cases hm : mapExcept (uniqueShadowPut meta entity) meta.uniqueAttributes with
    | error e =>
      simp only [hm] at h
      exact Except.noConfusion h
    | ok ups =>
      simp only [hm] at h
      cases ups with
      | nil =>
        simp only [Except.ok.injEq] at h
        constructor
        · intro p hp
          rw [← h] at hp
          cases hp
          by_cases hov : overwriteOf options
          · simp [hov]
          · simp [hov]
        · intro mainPut shadows hb
          rw [← h] at hb
          exact PutItemResult.noConfusion hb
      | cons q qs =>
        simp only [Except.ok.injEq] at h
        constructor
        · intro p hp
          rw [← h] at hp
          exact PutItemResult.noConfusion hp
        · intro mainPut shadows hb
          rw [← h] at hb
          have hb2 := PutItemResult.batch.inj hb
          have hmain : (if overwriteOf options then
              ({ item := de, tableName := meta.table.name,
                 conditionExpression := none,
                 expressionAttributeNames := [],
                 expressionAttributeValues := [] } : PutItemInput)
            else
              { item := de, tableName := meta.table.name,
                conditionExpression := some (attributeNotExistExpression
                  meta.table.partitionKey).expression,
                expressionAttributeNames := (attributeNotExistExpression
                  meta.table.partitionKey).names,
                expressionAttributeValues := (attributeNotExistExpression
                  meta.table.partitionKey).values }) = mainPut :=
            (List.cons.inj hb2).1
          constructor
          · rw [← hmain]
            by_cases hov : overwriteOf options
            · simp [hov]
            · simp [hov]
          · intro s hsmem
            have hsh : shadows = q :: qs := (List.cons.inj hb2).2.symm
            rw [hsh] at hsmem
            obtain ⟨a, _, hfa⟩ := mapExcept_ok_mem _ _ _ hm s hsmem
            exact uniqueShadowPut_ok_cond meta entity a s hfa

/-- A truthy value under an auto-update attribute's name in the
primary-key input makes the formatting step raise a collision error. -/
theorem formatAuto_error_of_truthy (autoAttrs : List AutoAttr)
    (primaryKey : AttrMap) (gen : String → Value) :
    ∀ a ∈ autoAttrs,
      ((lookupPairs primaryKey a.name).getD .undefined).truthy = true →
      ∃ n, formatAutoUpdateAttributes autoAttrs primaryKey gen =
        .error (.autoGeneratedAttributeKeyCollision n) := by
  induction autoAttrs with
  | nil =>
    intro a ha
    cases ha
  | cons b bs ih =>
    intro a ha htr
    by_cases hb : ((lookupPairs primaryKey b.name).getD .undefined).truthy = true
    · exact ⟨b.name, by simp [formatAutoUpdateAttributes, hb]⟩
    · have hbf : ((lookupPairs primaryKey b.name).getD .undefined).truthy = false :=
        Bool.eq_false_iff.mpr hb
      rcases List.mem_cons.mp ha with heq | hmem
      · rw [heq] at htr
        exact absurd htr hb
      · obtain ⟨n, hn⟩ := ih a hmem htr
        refine ⟨n, ?_⟩
        simp [formatAutoUpdateAttributes, hbf, hn]

/-- With no truthy value under any auto-update attribute's name, the
formatting step succeeds and produces exactly the freshly generated
value for each declared strategy, in declaration order. -/
theorem formatAuto_ok_of_falsy (autoAttrs : List AutoAttr)
    (primaryKey : AttrMap) (gen : String → Value)
    (h : ∀ a ∈ autoAttrs,
      ((lookupPairs primaryKey a.name).getD .undefined).truthy = false) :
    formatAutoUpdateAttributes autoAttrs primaryKey gen =
      .ok (autoAttrs.map (fun a => (a.name, gen a.strategy))) := by
  induction autoAttrs with
  | nil => rfl
  | cons b bs ih =>
    have hb := h b (List.mem_cons_self b bs)
    have hrec := ih (fun a ha => h a (List.mem_cons_of_mem b ha))
    simp [formatAutoUpdateAttributes, hb, hrec]

/-- Claim C8 (amended): the update path raises the collision error
exactly for auto-update attributes whose names carry a truthy value in
the primary-key input (a falsy value such as 0 escapes the check);
absent such a value every freshly generated value is merged into the
attributes to update before the update expression is built. -/
theorem c8_amended_truthy_collision (primaryKey : AttrMap)
    (gen : String → Value) :
    (∀ autoAttrs, ∀ a ∈ autoAttrs,
      ((lookupPairs primaryKey a.name).getD .undefined).truthy = true →
      ∃ n, formatAutoUpdateAttributes autoAttrs primaryKey gen =
        .error (.autoGeneratedAttributeKeyCollision n)) ∧
    (∀ autoAttrs,
      (∀ a ∈ autoAttrs,
        ((lookupPairs primaryKey a.name).getD .undefined).truthy = false) →
      formatAutoUpdateAttributes autoAttrs primaryKey gen =
        .ok (autoAttrs.map (fun a => (a.name, gen a.strategy)))) ∧
    (∀ meta body opts r,
      toDynamoUpdateItem meta primaryKey body opts gen = .ok r →
      ∃ fm, formatAutoUpdateAttributes meta.autoUpdateAttributes primaryKey
          gen = .ok fm ∧
        r.updateExpression = (buildUpdateExpression
          (mergeAttrs (mergeAttrs body fm)
            (getAffectedIndexesForAttributes meta
              (mergeAttrs body fm)))).expression) := by
  refine ⟨fun autoAttrs => formatAuto_error_of_truthy autoAttrs primaryKey gen,
          fun autoAttrs => formatAuto_ok_of_falsy autoAttrs primaryKey gen,
          ?_⟩
  intro meta body opts r h
  unfold toDynamoUpdateItem at h
  cases hp : getParsedPrimaryKey meta.table meta.primaryKey primaryKey with
  | error e =>
    simp only [hp] at h
    exact Except.noConfusion h
  | ok parsed =>
    simp only [hp] at h
    by_cases he : parsed.isEmpty
    · simp [he] at h
    · simp only [he, if_neg, Bool.not_eq_true] at h
      cases hu : checkUniqueAttributesNotInBody meta.uniqueAttributes body with
      | error e =>
        simp only [hu] at h
        exact Except.noConfusion h
      | ok u =>
        simp only [hu] at h
        cases hf : formatAutoUpdateAttributes meta.autoUpdateAttributes
            primaryKey gen with
        | error e =>
          simp only [hf] at h
          exact Except.noConfusion h
        | ok fm =>
          simp only [hf, Except.ok.injEq] at h
          exact ⟨fm, rfl, by rw [← h]⟩

/-- Claim C10 (amended): with a keyCondition holding several operators,
exactly one sort-key clause is built: a non-empty BETWEEN wins, else a
truthy BEGINS_WITH, else the first enumerated key of the whole object
is used as a base comparison operator (even when that key is an empty
BETWEEN or a falsy BEGINS_WITH); the merged expression contains exactly
the partition equality and that one chosen clause. -/
theorem c10_amended_precedence (sortName : String) (kc : KeyConditionInput)
    (hne : kc ≠ []) :
    (∀ v vs, lookupKC kc FindKeyOp.BETWEEN = some (.range (v :: vs)) →
      buildSortKeyCondition sortName kc = .between sortName (v :: vs)) ∧
    (betweenTaken kc = false →
      ∀ bv, lookupKC kc FindKeyOp.BEGINS_WITH = some bv → bv.truthy = true →
        buildSortKeyCondition sortName kc = .beginsWith sortName bv) ∧
    (betweenTaken kc = false → beginsWithTaken kc = false →
      ∀ op v rest, kc = (op, v) :: rest →
        buildSortKeyCondition sortName kc = .cmp op sortName v) ∧
    (∀ meta attrs o q, o.keyCondition = some kc →
      toDynamoQueryItem meta attrs none (some o) = .ok q →
      ∃ nm pv sn, q.keyConditionExpression =
        some (buildKeyConditionExpression
          [.eq nm (Value.str pv), buildSortKeyCondition sn kc]).expression) := by
  refine ⟨?_, ?_, ?_, ?_⟩
  · intro v vs hB
    simp [buildSortKeyCondition, hB]
  · intro hBt bv hbw htr
    cases hB : lookupKC kc FindKeyOp.BETWEEN with
    | none => simp [buildSortKeyCondition, hB, hbw, htr]
    | some kv =>
      cases kv with
      | scalar v0 => simp [buildSortKeyCondition, hB, hbw, htr]
      | range vs =>
        cases vs with
        | nil => simp [buildSortKeyCondition, hB, hbw, htr]
        | cons v0 vs0 =>
          exfalso
          unfold betweenTaken at hBt
          rw [hB] at hBt
          exact Bool.noConfusion hBt
  · intro hBt hBW op v rest hkc
    have hfirst : firstKeyClause sortName kc = .cmp op sortName v := by
      rw [hkc]
      rfl
    cases hB : lookupKC kc FindKeyOp.BETWEEN with
    | none =>
      cases hbw : lookupKC kc FindKeyOp.BEGINS_WITH with
      | none => rw [← hfirst]; simp [buildSortKeyCondition, hB, hbw]
      | some bv =>
        have hbvf : bv.truthy = false := by
          unfold beginsWithTaken at hBW
          rw [hbw] at hBW
          exact hBW
        rw [← hfirst]
        simp [buildSortKeyCondition, hB, hbw, hbvf]
    | some kv =>
      cases kv with
      | scalar v0 =>
        cases hbw : lookupKC kc FindKeyOp.BEGINS_WITH with
        | none => rw [← hfirst]; simp [buildSortKeyCondition, hB, hbw]
        | some bv =>
          have hbvf : bv.truthy = false := by
            unfold beginsWithTaken at hBW
            rw [hbw] at hBW
            exact hBW
          rw [← hfirst]
          simp [buildSortKeyCondition, hB, hbw, hbvf]
      | range vs =>
        cases vs with
        | nil =>
          cases hbw : lookupKC kc FindKeyOp.BEGINS_WITH with
          | none => rw [← hfirst]; simp [buildSortKeyCondition, hB, hbw]
          | some bv =>
            have hbvf : bv.truthy = false := by
              unfold beginsWithTaken at hBW
              rw [hbw] at hBW
              exact hBW
            rw [← hfirst]
            simp [buildSortKeyCondition, hB, hbw, hbvf]
        | cons v0 vs0 =>
          exfalso
          unfold betweenTaken at hBt
          rw [hB] at hBt
          exact Bool.noConfusion hBt
  · intro meta attrs o q ho h
    unfold toDynamoQueryItem at h
    cases hpk : resolveQueryPartitionKey meta attrs none with
    | error e =>
      simp only [hpk] at h
      exact Except.noConfusion h
    | ok pk =>
      obtain ⟨nm, pv⟩ := pk
      simp only [hpk] at h
      have hoe : o.isEmptyObject = false := by
        simp [QueryOptions.isEmptyObject, ho]
      simp only [hoe] at h
      cases hsk : meta.table.sortKey with
      | none =>
        simp only [hsk] at h
        exact Except.noConfusion h
      | some sk =>
        simp only [hsk] at h
        have hkce : kc.isEmpty = false := by
          cases kc with
          | nil => exact absurd rfl hne
          | cons a as => rfl
        simp only [ho, hkce, Bool.false_eq_true, if_false,
          Except.ok.injEq] at h
        refine ⟨nm, pv, sk, ?_⟩
        rw [← h]

/-- Witness for C1: the GSI1 query on the User entity resolves the
partition key to the index's own attribute via the entity schema's
GSI1 template. -/
theorem c1_partition_key_source_witness :
    ("GSI1PK" : String) = gsi1Index.partitionKey ∧
    ∃ sch t, lookupPairs userMeta.indexes "GSI1" = some sch ∧
      lookupPairs sch gsi1Index.partitionKey = some t ∧
      parseKey t [("status", Value.str "active")] =
        .ok "USER#STATUS#active" :=
  (c1_partition_key_source userMeta [("status", Value.str "active")]
    (some ("GSI1", gsi1Index))
    "GSI1PK" "USER#STATUS#active" (by decide)).2 "GSI1" gsi1Index rfl rfl

/-- Witness for C2: putting the account entity with one unique email
attribute yields the entity put plus one shadow put whose item is the
deterministic unique-attribute key. -/
theorem c2_put_batch_shape_witness :
    ∃ mainPut shadows,
      testPutResult = PutItemResult.batch (mainPut :: shadows) ∧
      shadows.length = uniqMeta.uniqueAttributes.length ∧
      ∀ i (hi : i < uniqMeta.uniqueAttributes.length)
        (hs : i < shadows.length),
        (shadows.get ⟨i, hs⟩).item =
          strToValMap (getUniqueAttributePrimaryKey uniqMeta.table
            uniqMeta.name (uniqMeta.uniqueAttributes.get ⟨i, hi⟩).name
            (resolveUniqueAttributeValue testPutEntity
              (uniqMeta.uniqueAttributes.get ⟨i, hi⟩))) :=
  (c2_put_batch_shape uniqMeta testPutEntity none testPutResult
    (by decide)).2 (by decide)

/-- Witness for C3: in the same concrete put, the entity put carries
the partition-key attribute-not-exists condition under the default
options. -/
theorem c3_put_conditions_witness :
    testPutMain.conditionExpression =
      (if overwriteOf none then none
       else some (attributeNotExistExpression
         uniqMeta.table.partitionKey).expression) :=
  ((c3_put_conditions uniqMeta testPutEntity none testPutResult
    (by decide)).2 testPutMain [testPutShadow] (by decide)).1

/-- Witness for C4: on the organisation table with no sort key, a
limit-only options object triggers the error while absent options do
not. -/
theorem c4_amended_error_on_any_options_witness :
    (queryOptionsEmpty (some limitOnlyOptions) = false →
      toDynamoQueryItem orgMeta [("id", Value.str "1")] none
        (some limitOnlyOptions) =
      .error .unsupportedSortKeyCondition) ∧
    (queryOptionsEmpty (some limitOnlyOptions) = true →
      toDynamoQueryItem orgMeta [("id", Value.str "1")] none
        (some limitOnlyOptions) =
      .ok (partitionOnlyQuery orgMeta none
        (.eq "PK" (Value.str "ORG#1")))) :=
  c4_amended_error_on_any_options orgMeta [("id", Value.str "1")]
    (some limitOnlyOptions) rfl "PK" "ORG#1" (by decide)

/-- Witness for C6: with no auto-update attributes declared on the
organisation entity, two different generation environments give the
same update request. -/
theorem c6_amended_determinism_witness :
    toDynamoUpdateItem orgMeta [("id", Value.str "1")]
      [("name", Value.str "n")] none (fun _ => Value.str "A") =
    toDynamoUpdateItem orgMeta [("id", Value.str "1")]
      [("name", Value.str "n")] none (fun _ => Value.str "B") :=
  c6_amended_determinism orgMeta [("id", Value.str "1")]
    [("name", Value.str "n")] none (fun _ => Value.str "A")
    (fun _ => Value.str "B") rfl

/-- Witness for C7: the get and delete requests for User id 1 carry
the same Key map. -/
theorem c7_get_delete_key_agree_witness :
    ({ tableName := "test-table"
       key := [("PK", "USER#1"), ("SK", "USER#1")] } : GetItemInput).key =
    ({ tableName := "test-table"
       key := [("PK", "USER#1"), ("SK", "USER#1")] } : DeleteItemInput).key :=
  c7_get_delete_key_agree userMeta [("id", Value.str "1")] (by decide)
    { tableName := "test-table", key := [("PK", "USER#1"), ("SK", "USER#1")] }
    { tableName := "test-table", key := [("PK", "USER#1"), ("SK", "USER#1")] }
    (by decide) (by decide)

/-- Witness for C8: with the primary-key input assigning only falsy or
absent values to the auto-update attribute v, formatting succeeds and
produces the freshly generated value. -/
theorem c8_amended_truthy_collision_witness :
    formatAutoUpdateAttributes [{ name := "v", strategy := "COUNTER" }]
      [("id", Value.str "1"), ("v", Value.num 0)] (fun _ => Value.str "GEN") =
    .ok [("v", Value.str "GEN")] :=
  (c8_amended_truthy_collision [("id", Value.str "1"), ("v", Value.num 0)]
    (fun _ => Value.str "GEN")).2.1 [{ name := "v", strategy := "COUNTER" }]
    (by decide)

/-- Witness for C10: in a keyCondition listing BEGINS_WITH before LT,
the truthy BEGINS_WITH wins and a single begins-with clause is built. -/
theorem c10_amended_precedence_witness :
    buildSortKeyCondition "SK"
      [(FindKeyOp.BEGINS_WITH, KCVal.scalar (Value.str "USER#A")),
       (FindKeyOp.LT, KCVal.scalar (Value.num 9))] =
    .beginsWith "SK" (KCVal.scalar (Value.str "USER#A")) :=
  (c10_amended_precedence "SK"
    [(FindKeyOp.BEGINS_WITH, KCVal.scalar (Value.str "USER#A")),
     (FindKeyOp.LT, KCVal.scalar (Value.num 9))]
    (by decide)).2.1 (by decide) (KCVal.scalar (Value.str "USER#A"))
    (by decide) (by decide)

end DocClient
